import Mathlib

set_option maxRecDepth 10000

/-!
Shallow embedding of the OpenAI Codex Device Authorization Grant flow
(`requestDeviceCode`, `pollForDeviceAuthorization`,
`exchangeDeviceCodeForTokens`, and the `OpenAiCodexOAuthManager` methods
`startDeviceCodeFlow`, `waitForDeviceAuthorization`,
`cancelDeviceCodeFlow`).

The network is modelled by an environment assigning an HTTP response to
every poll request and to the token exchange.  Time is discrete
(milliseconds); the only operation that advances the clock is the
`setTimeout` sleep between polls, which adds `intervalMs`.  An
`AbortSignal` is modelled by the instant (if any) at which it fires: the
checks `throwIfAborted()` and `fetch`'s own signal check observe it as
soon as the current clock value reaches that instant.  Every network
request is recorded, with its issue time, in a trace.  The polling loop
is written with explicit fuel and returns `none` when the fuel runs out,
so no behaviour is invented for runs longer than the fuel.
-/

namespace DeviceCodeAuth

/-- `response.ok` of the fetch API: status in the range 200–299. -/
def httpOk (s : Nat) : Bool := 200 ≤ s && s < 300

/-- The statuses the polling loop treats as "user has not authorized yet"
(`response.status === 403 || response.status === 404` in the source). -/
def isPendingStatus (s : Nat) : Bool := s == 403 || s == 404

/-- Parsed body of a successful device-code request
(`deviceCodeResponseSchema`): `device_auth_id`, `user_code`, optional
`interval` in seconds. -/
structure DeviceCodeResponse where
  device_auth_id : String
  user_code : String
  interval : Option Nat
deriving DecidableEq, Repr

/-- Parsed body of a successful poll response
(`deviceTokenResponseSchema`): the server-generated authorization code
and PKCE material. -/
structure DeviceTokenResponse where
  authorization_code : String
  code_challenge : String
  code_verifier : String
deriving DecidableEq, Repr

/-- The credential set produced by the token exchange. -/
structure OpenAiCodexCredentials where
  accessToken : String
  refreshToken : String
  idToken : String
  accountId : String
deriving DecidableEq, Repr

/-- One network request, as recorded in a trace. -/
inductive Event where
  | deviceCodeRequest
  | pollRequest (deviceAuthId userCode : String)
  | exchangeRequest (code codeVerifier : String)
deriving DecidableEq, Repr

/-- The device-code endpoint's answer: HTTP status plus the result of
parsing the body against `deviceCodeResponseSchema` (`none` when the
body does not parse). -/
structure DeviceCodeHttp where
  status : Nat
  body : Option DeviceCodeResponse
deriving DecidableEq, Repr

/-- Errors `requestDeviceCode` can throw. -/
inductive ReqError where
  | notEnabled
  | requestFailed (status : Nat)
  | parseError
deriving DecidableEq, Repr

/-- `requestDeviceCode()`: POST to the device-code endpoint; a 404 means
device-code auth is not enabled for the account, any other non-ok status
is a request failure, otherwise the body is parsed.  The returned list
records every network request made. -/
def requestDeviceCode (resp : DeviceCodeHttp) :
    Except ReqError DeviceCodeResponse × List Event :=
  if resp.status = 404 then
    (.error .notEnabled, [.deviceCodeRequest])
  else if httpOk resp.status then
    match resp.body with
    | some b => (.ok b, [.deviceCodeRequest])
    | none => (.error .parseError, [.deviceCodeRequest])
  else
    (.error (.requestFailed resp.status), [.deviceCodeRequest])

/-- The poll endpoint's answer to one poll: HTTP status plus the result
of parsing the body against `deviceTokenResponseSchema`. -/
structure PollHttp where
  status : Nat
  body : Option DeviceTokenResponse
deriving DecidableEq, Repr

/-- The network environment of one polling run: the response to the
`k`-th poll request, and the token-exchange endpoint's status and parsed
body. -/
structure PollEnv where
  pollResp : Nat → PollHttp
  exchangeStatus : Nat
  exchangeBody : Option OpenAiCodexCredentials

/-- Errors `pollForDeviceAuthorization` can throw. -/
inductive PollError where
  | aborted
  | pollingFailed (status : Nat)
  | timedOut
  | parseError
  | exchangeFailed (status : Nat)
  | malformedExchangeResponse
deriving DecidableEq, Repr

/-- Injection used to decide equality of `Except` values. -/
def exceptToSum {ε α : Type} : Except ε α → ε ⊕ α
  | .error e => .inl e
  | .ok a => .inr a

instance {ε α : Type} [DecidableEq ε] [DecidableEq α] :
    DecidableEq (Except ε α) := fun a b =>
  decidable_of_iff (exceptToSum a = exceptToSum b)
    (by cases a <;> cases b <;> simp [exceptToSum])

/-- The observable outcome of one polling run: the value returned or
error thrown, the timed trace of network requests, and the clock value
at termination. -/
structure PollRun where
  result : Except PollError OpenAiCodexCredentials
  trace : List (Nat × Event)
  endTime : Nat
deriving DecidableEq, Repr

/-- Whether the abort signal (firing at instant `f`, or never when
`none`) is observed as aborted at clock value `t`. -/
def abortedAt (sig : Option Nat) (t : Nat) : Bool :=
  match sig with
  | none => false
  | some f => decide (f ≤ t)

/-- Modelled from the spec: the token-parse half of
`exchangeDeviceCodeForTokens` is only sketched in the source file (it
defers to the pre-existing `exchangeCodeForTokens`, which is not part of
the provided sources).  Following the spec's `exchangeForCredentials`
contract: any non-success response fails with the exchange status, an
unparseable body is a malformed response, otherwise the parsed
credential set is returned. -/
def exchangeDeviceCodeForTokens (env : PollEnv) :
    Except PollError OpenAiCodexCredentials :=
  if httpOk env.exchangeStatus then
    match env.exchangeBody with
    | some c => .ok c
    | none => .error .malformedExchangeResponse
  else
    .error (.exchangeFailed env.exchangeStatus)

/-- The body of `pollForDeviceAuthorization`'s `while` loop, entered at
clock value `t` with `k` polls already issued.  Each iteration:
`throwIfAborted`, sleep `intervalMs` (not interruptible — a plain
`setTimeout`), then `fetch` with the signal (which rejects without
issuing a request when the signal already fired), continue on 403/404,
throw on any other non-ok status, otherwise parse and exchange.  The
`while` condition `Date.now() < deadline` is checked at every entry. -/
def pollLoop (env : PollEnv) (deviceAuthId userCode : String)
    (intervalMs deadline : Nat) (sig : Option Nat) :
    Nat → Nat → Nat → Option PollRun
  | t, _, 0 => if t < deadline then none else some ⟨.error .timedOut, [], t⟩
  | t, k, fuel' + 1 =>
    if t < deadline then
      if abortedAt sig t then
        some ⟨.error .aborted, [], t⟩
      else
        let tf := t + intervalMs
        if abortedAt sig tf then
          some ⟨.error .aborted, [], tf⟩
        else
          let r := env.pollResp k
          if isPendingStatus r.status then
            match pollLoop env deviceAuthId userCode intervalMs deadline sig
                tf (k + 1) fuel' with
            | none => none
            | some run =>
              some { run with
                trace := (tf, .pollRequest deviceAuthId userCode) :: run.trace }
          else if httpOk r.status then
            match r.body with
            | some b =>
              some ⟨exchangeDeviceCodeForTokens env,
                [(tf, .pollRequest deviceAuthId userCode),
                 (tf, .exchangeRequest b.authorization_code b.code_verifier)],
                tf⟩
            | none =>
              some ⟨.error .parseError,
                [(tf, .pollRequest deviceAuthId userCode)], tf⟩
          else
            some ⟨.error (.pollingFailed r.status),
              [(tf, .pollRequest deviceAuthId userCode)], tf⟩
    else
      some ⟨.error .timedOut, [], t⟩

/-- `OPENAI_CODEX_DEVICE_AUTH_CONFIG`: default polling interval and
timeout. -/
structure DeviceAuthConfig where
  pollingIntervalMs : Nat
  timeoutMs : Nat
deriving DecidableEq, Repr

def OPENAI_CODEX_DEVICE_AUTH_CONFIG : DeviceAuthConfig :=
  ⟨5000, 15 * 60 * 1000⟩

/-- `pollForDeviceAuthorization(deviceAuthId, userCode, options)`:
interval and timeout fall back to the configured defaults via `??`; the
run starts at clock value 0, so the deadline is the timeout itself. -/
def pollForDeviceAuthorization (env : PollEnv)
    (deviceAuthId userCode : String)
    (oIntervalMs oTimeoutMs sig : Option Nat) (fuel : Nat) :
    Option PollRun :=
  pollLoop env deviceAuthId userCode
    (oIntervalMs.getD OPENAI_CODEX_DEVICE_AUTH_CONFIG.pollingIntervalMs)
    (oTimeoutMs.getD OPENAI_CODEX_DEVICE_AUTH_CONFIG.timeoutMs)
    sig 0 0 fuel

/-- The mutable state of `OpenAiCodexOAuthManager` relevant to the
device-code flow: the current `deviceCodeAbortController` (identified by
a generation number, `none` when the field is `null`), the set of
controllers whose signal has been aborted, the persisted credential set,
and a counter for fresh controller identities. -/
structure ManagerState where
  deviceCodeAbortController : Option Nat
  abortedControllers : List Nat
  savedCredentials : Option OpenAiCodexCredentials
  nextControllerId : Nat
deriving DecidableEq, Repr

/-- Manager-level events: aborting a controller's signal, or a network
request. -/
inductive MEvent where
  | abortSignal (controllerId : Nat)
  | net (e : Event)
deriving DecidableEq, Repr

/-- `cancelDeviceCodeFlow()`:
`this.deviceCodeAbortController?.abort(); this.deviceCodeAbortController = null`.
Returns the new state and the abort events produced. -/
def cancelDeviceCodeFlow (s : ManagerState) : ManagerState × List MEvent :=
  match s.deviceCodeAbortController with
  | none => (s, [])
  | some c =>
    ({ s with
        deviceCodeAbortController := none,
        abortedControllers := c :: s.abortedControllers },
      [.abortSignal c])

/-- `startDeviceCodeFlow()`: cancel any prior flow, install a fresh
`AbortController`, then issue the device-code request. -/
def startDeviceCodeFlow (resp : DeviceCodeHttp) (s : ManagerState) :
    ManagerState × Except ReqError DeviceCodeResponse × List MEvent :=
  let s1 := (cancelDeviceCodeFlow s).1
  let cancelEvs := (cancelDeviceCodeFlow s).2
  let s2 := { s1 with
    deviceCodeAbortController := some s1.nextControllerId,
    nextControllerId := s1.nextControllerId + 1 }
  let r := requestDeviceCode resp
  (s2, r.1, cancelEvs ++ r.2.map MEvent.net)

/-- Errors `waitForDeviceAuthorization` can throw. -/
inductive WaitError where
  | noPendingFlow
  | pollFailed (e : PollError)
deriving DecidableEq, Repr

/-- `waitForDeviceAuthorization(deviceAuthId, userCode)`: throws when no
abort controller is pending; otherwise runs `pollForDeviceAuthorization`
with the controller's signal (`sig` is the instant that signal fires, if
ever).  On success it persists the credentials and clears the
controller; on an error the thrown exception propagates before the
`saveCredentials` and `deviceCodeAbortController = null` lines run.  The
persistence step `saveCredentials` is modelled from the spec (its
implementation is a pre-existing method outside the provided sources):
it installs the credentials as the active credential set. -/
def waitForDeviceAuthorization (env : PollEnv)
    (deviceAuthId userCode : String) (sig : Option Nat) (fuel : Nat)
    (s : ManagerState) :
    Option (ManagerState × Except WaitError OpenAiCodexCredentials ×
      List (Nat × Event)) :=
  match s.deviceCodeAbortController with
  | none => some (s, .error .noPendingFlow, [])
  | some _ =>
    match pollForDeviceAuthorization env deviceAuthId userCode
        none none sig fuel with
    | none => none
    | some run =>
      match run.result with
      | .error e => some (s, .error (.pollFailed e), run.trace)
      | .ok credentials =>
        some ({ s with
            savedCredentials := some credentials,
            deviceCodeAbortController := none },
          .ok credentials, run.trace)

/-- Trace observers. -/
def isPollEvent : Event → Bool
  | .pollRequest _ _ => true
  | _ => false

def isExchangeEvent : Event → Bool
  | .exchangeRequest _ _ => true
  | _ => false

/-- Issue times of the poll requests in a trace, in order. -/
def pollTimes (tr : List (Nat × Event)) : List Nat :=
  tr.filterMap fun te => if isPollEvent te.2 then some te.1 else none

/-- Number of poll requests in a trace. -/
def countPolls (tr : List (Nat × Event)) : Nat :=
  (tr.filter fun te => isPollEvent te.2).length

/-- The exchange requests in a trace, in order. -/
def exchangeCalls (tr : List (Nat × Event)) : List Event :=
  (tr.map Prod.snd).filter isExchangeEvent

/-- `spacedFromB i t l` holds when the instants in `l` follow `t` at
exact spacing `i`: `l = [t+i, t+2*i, ...]`. -/
def spacedFromB (i : Nat) : Nat → List Nat → Bool
  | _, [] => true
  | t, x :: xs => x == t + i && spacedFromB i x xs

/-- The first `n` poll requests of a run whose responses are all
pending, entered at clock value `t`: one request every `intervalMs`,
starting at `t + intervalMs`. -/
def pendPolls (deviceAuthId userCode : String) (t i n : Nat) :
    List (Nat × Event) :=
  (List.range n).map fun j => (t + (j + 1) * i, .pollRequest deviceAuthId userCode)

/-! ### Concrete environments used by witnesses and counterexamples -/

/-- A provider that never reports the user as authorized. -/
def envAllPending : PollEnv :=
  ⟨fun _ => ⟨404, none⟩, 200, some ⟨"at", "rt", "it", "acc"⟩⟩

/-- Three pending answers, then a success payload; the exchange
succeeds. -/
def envSuccessAt3 : PollEnv :=
  ⟨fun k => if k < 3 then ⟨404, none⟩ else ⟨200, some ⟨"ac1", "cc", "cv"⟩⟩,
   200, some ⟨"at", "rt", "it", "acc"⟩⟩

/-- Two pending answers, then a fatal 500 from the poll endpoint. -/
def envFatalAt2 : PollEnv :=
  ⟨fun k => if k < 2 then ⟨404, none⟩ else ⟨500, none⟩, 200, none⟩

/-- An immediate success payload, but the token exchange answers 500. -/
def envExchangeFails : PollEnv :=
  ⟨fun _ => ⟨200, some ⟨"ac1", "cc", "cv"⟩⟩, 500, none⟩

/-- A manager state with one in-flight device-code flow. -/
def mgrPending : ManagerState := ⟨some 0, [], none, 1⟩

/-! ### Helper lemmas -/

/-- An ok status is never one of the pending statuses. -/
lemma isPendingStatus_of_httpOk {s : Nat} (h : httpOk s = true) :
    isPendingStatus s = false := by
  simp only [httpOk, Bool.and_eq_true, decide_eq_true_eq] at h
  simp only [isPendingStatus, Bool.or_eq_false_iff, beq_eq_false_iff_ne]
  omega

/-- The token exchange never produces the abort, timeout, parse or
polling errors. -/
lemma exchange_shape (env : PollEnv) :
    exchangeDeviceCodeForTokens env = .error (.exchangeFailed env.exchangeStatus) ∨
    exchangeDeviceCodeForTokens env = .error .malformedExchangeResponse ∨
    ∃ c, exchangeDeviceCodeForTokens env = .ok c := by
  unfold exchangeDeviceCodeForTokens
  by_cases h : httpOk env.exchangeStatus = true
  · cases hb : env.exchangeBody <;> simp [h, hb]
  · simp [h]

/-- With a signal firing at instant `f`, every network request of the
polling loop is issued strictly before `f`: each request is guarded by
the `fetch` signal check at its issue time. -/
lemma pollLoop_trace_before_abort (env : PollEnv) (did uc : String)
    (i D f : Nat) :
    ∀ fuel t k run,
      pollLoop env did uc i D (some f) t k fuel = some run →
      ∀ te ∈ run.trace, te.1 < f := by
  intro fuel
  induction fuel with
  | zero =>
    intro t k run h te hte
    unfold pollLoop at h
    split at h
    · exact absurd h (by simp)
    · obtain rfl : (⟨.error .timedOut, [], t⟩ : PollRun) = run :=
        Option.some.inj h
      simp at hte
  | succ fuel ih =>
    intro t k run h te hte
    unfold pollLoop at h
    split at h
    case isFalse =>
      obtain rfl : (⟨.error .timedOut, [], t⟩ : PollRun) = run :=
        Option.some.inj h
      simp at hte
    case isTrue hD =>
      by_cases ha : abortedAt (some f) t = true
      · rw [if_pos ha] at h
        obtain rfl : (⟨.error .aborted, [], t⟩ : PollRun) = run :=
          Option.some.inj h
        simp at hte
      · rw [if_neg ha] at h
        by_cases haf : abortedAt (some f) (t + i) = true
        · rw [if_pos haf] at h
          obtain rfl : (⟨.error .aborted, [], t + i⟩ : PollRun) = run :=
            Option.some.inj h
          simp at hte
        · rw [if_neg haf] at h
          have hlt : t + i < f := by
            simp only [abortedAt, decide_eq_true_eq] at haf
            omega
          by_cases hp : isPendingStatus (env.pollResp k).status = true
          · rw [if_pos hp] at h
            cases hrec : pollLoop env did uc i D (some f) (t + i) (k + 1) fuel with
            | none => rw [hrec] at h; exact absurd h (by simp)
            | some run' =>
              rw [hrec] at h
              obtain rfl :
                  ({ run' with trace :=
                      (t + i, .pollRequest did uc) :: run'.trace } : PollRun) = run :=
                Option.some.inj h
              simp only [List.mem_cons] at hte
              rcases hte with rfl | hte
              · exact hlt
              · exact ih (t + i) (k + 1) run' hrec te hte
          · rw [if_neg hp] at h
            by_cases hok : httpOk (env.pollResp k).status = true
            · rw [if_pos hok] at h
              cases hb : (env.pollResp k).body with
              | some b =>
                rw [hb] at h
                obtain rfl :
                    (⟨exchangeDeviceCodeForTokens env,
                      [(t + i, .pollRequest did uc),
                       (t + i, .exchangeRequest b.authorization_code b.code_verifier)],
                      t + i⟩ : PollRun) = run := Option.some.inj h
                simp only [List.mem_cons, List.not_mem_nil, or_false] at hte
                rcases hte with rfl | rfl <;> exact hlt
              | none =>
                rw [hb] at h
                obtain rfl :
                    (⟨.error .parseError,
                      [(t + i, .pollRequest did uc)], t + i⟩ : PollRun) = run :=
                  Option.some.inj h
                simp only [List.mem_cons, List.not_mem_nil, or_false] at hte
                rcases hte with rfl
                exact hlt
            · rw [if_neg hok] at h
              obtain rfl :
                  (⟨.error (.pollingFailed (env.pollResp k).status),
                    [(t + i, .pollRequest did uc)], t + i⟩ : PollRun) = run :=
                Option.some.inj h
              simp only [List.mem_cons, List.not_mem_nil, or_false] at hte
              rcases hte with rfl
              exact hlt

/-- When the loop is entered at `t` with the signal not due before
`t + intervalMs` ruled out (`t < f + intervalMs`) and terminates with
the abort error, it does so at the first signal checkpoint at or after
`f`: within one polling interval of the signal. -/
lemma pollLoop_abort_latency (env : PollEnv) (did uc : String)
    (i D f : Nat) :
    ∀ fuel t k run, t < f + i →
      pollLoop env did uc i D (some f) t k fuel = some run →
      run.result = .error .aborted →
      f ≤ run.endTime ∧ run.endTime < f + i := by
  intro fuel
  induction fuel with
  | zero =>
    intro t k run ht h hr
    unfold pollLoop at h
    split at h
    · exact absurd h (by simp)
    · obtain rfl : (⟨.error .timedOut, [], t⟩ : PollRun) = run :=
        Option.some.inj h
      simp at hr
  | succ fuel ih =>
    intro t k run ht h hr
    unfold pollLoop at h
    split at h
    case isFalse =>
      obtain rfl : (⟨.error .timedOut, [], t⟩ : PollRun) = run :=
        Option.some.inj h
      simp at hr
    case isTrue hD =>
      by_cases ha : abortedAt (some f) t = true
      · rw [if_pos ha] at h
        obtain rfl : (⟨.error .aborted, [], t⟩ : PollRun) = run :=
          Option.some.inj h
        simp only [abortedAt, decide_eq_true_eq] at ha
        exact ⟨ha, ht⟩
      · rw [if_neg ha] at h
        have htf : t < f := by
          simp only [abortedAt, decide_eq_true_eq] at ha
          omega
        by_cases haf : abortedAt (some f) (t + i) = true
        · rw [if_pos haf] at h
          obtain rfl : (⟨.error .aborted, [], t + i⟩ : PollRun) = run :=
            Option.some.inj h
          simp only [abortedAt, decide_eq_true_eq] at haf
          exact ⟨haf, by simp only []; omega⟩
        · rw [if_neg haf] at h
          have hlt : t + i < f := by
            simp only [abortedAt, decide_eq_true_eq] at haf
            omega
          by_cases hp : isPendingStatus (env.pollResp k).status = true
          · rw [if_pos hp] at h
            cases hrec : pollLoop env did uc i D (some f) (t + i) (k + 1) fuel with
            | none => rw [hrec] at h; exact absurd h (by simp)
            | some run' =>
              rw [hrec] at h
              obtain rfl :
                  ({ run' with trace :=
                      (t + i, .pollRequest did uc) :: run'.trace } : PollRun) = run :=
                Option.some.inj h
              exact ih (t + i) (k + 1) run' (by omega) hrec hr
          · rw [if_neg hp] at h
            by_cases hok : httpOk (env.pollResp k).status = true
            · rw [if_pos hok] at h
              cases hb : (env.pollResp k).body with
              | some b =>
                rw [hb] at h
                obtain rfl :
                    (⟨exchangeDeviceCodeForTokens env,
                      [(t + i, .pollRequest did uc),
                       (t + i, .exchangeRequest b.authorization_code b.code_verifier)],
                      t + i⟩ : PollRun) = run := Option.some.inj h
                rcases exchange_shape env with hx | hx | ⟨c, hx⟩ <;>
                  simp [hx] at hr
              | none =>
                rw [hb] at h
                obtain rfl :
                    (⟨.error .parseError,
                      [(t + i, .pollRequest did uc)], t + i⟩ : PollRun) = run :=
                  Option.some.inj h
                simp at hr
            · rw [if_neg hok] at h
              obtain rfl :
                  (⟨.error (.pollingFailed (env.pollResp k).status),
                    [(t + i, .pollRequest did uc)], t + i⟩ : PollRun) = run :=
                Option.some.inj h
              simp at hr

/-- When every poll response is pending and no signal fires, the loop
runs until the deadline and throws the timeout error (given fuel for
`deadline ≤ t + fuel * intervalMs` clock progress). -/
lemma pollLoop_allPending_timeout (env : PollEnv) (did uc : String)
    (i D : Nat)
    (hall : ∀ j, isPendingStatus (env.pollResp j).status = true) :
    ∀ fuel t k, D ≤ t + fuel * i →
      ∃ run, pollLoop env did uc i D none t k fuel = some run ∧
        run.result = .error .timedOut := by
  intro fuel
  induction fuel with
  | zero =>
    intro t k hft
    refine ⟨⟨.error .timedOut, [], t⟩, ?_, rfl⟩
    unfold pollLoop
    rw [if_neg (by omega)]
  | succ fuel ih =>
    intro t k hft
    by_cases hD : t < D
    · obtain ⟨run', hrec, hres⟩ := ih (t + i) (k + 1) (by
        have : (fuel + 1) * i = fuel * i + i := by ring
        omega)
      refine ⟨{ run' with trace := (t + i, .pollRequest did uc) :: run'.trace },
        ?_, hres⟩
      unfold pollLoop
      simp [abortedAt, hD, hall k, hrec]
    · refine ⟨⟨.error .timedOut, [], t⟩, ?_, rfl⟩
      unfold pollLoop
      rw [if_neg hD]

/-- When every poll response is pending and the signal fires at `f ≤ D`,
the loop terminates with the abort error (given enough fuel). -/
lemma pollLoop_allPending_abort (env : PollEnv) (did uc : String)
    (i D f : Nat)
    (hall : ∀ j, isPendingStatus (env.pollResp j).status = true)
    (hfD : f ≤ D) :
    ∀ fuel t k, t < f → f ≤ t + fuel * i →
      ∃ run, pollLoop env did uc i D (some f) t k fuel = some run ∧
        run.result = .error .aborted := by
  intro fuel
  induction fuel with
  | zero =>
    intro t k htf hft
    omega
  | succ fuel ih =>
    intro t k htf hft
    have hD : t < D := by omega
    by_cases haf : f ≤ t + i
    · refine ⟨⟨.error .aborted, [], t + i⟩, ?_, rfl⟩
      unfold pollLoop
      rw [if_pos hD]
      rw [if_neg (by simp only [abortedAt, decide_eq_true_eq]; omega)]
      rw [if_pos (by simp only [abortedAt, decide_eq_true_eq]; omega)]
    · obtain ⟨run', hrec, hres⟩ := ih (t + i) (k + 1) (by omega) (by
        have : (fuel + 1) * i = fuel * i + i := by ring
        omega)
      refine ⟨{ run' with trace := (t + i, .pollRequest did uc) :: run'.trace },
        ?_, hres⟩
      unfold pollLoop
      rw [if_pos hD]
      rw [if_neg (by simp only [abortedAt, decide_eq_true_eq]; omega)]
      rw [if_neg (by simp only [abortedAt, decide_eq_true_eq]; omega)]
      simp [hall k, hrec]

/-- The poll requests of any run entered at clock value `t` are spaced
exactly `intervalMs` apart, the first one at `t + intervalMs`. -/
lemma pollLoop_spacing (env : PollEnv) (did uc : String)
    (i D : Nat) (sig : Option Nat) :
    ∀ fuel t k run,
      pollLoop env did uc i D sig t k fuel = some run →
      spacedFromB i t (pollTimes run.trace) = true := by
  intro fuel
  induction fuel with
  | zero =>
    intro t k run h
    unfold pollLoop at h
    split at h
    · exact absurd h (by simp)
    · obtain rfl : (⟨.error .timedOut, [], t⟩ : PollRun) = run :=
        Option.some.inj h
      simp [pollTimes, spacedFromB]
  | succ fuel ih =>
    intro t k run h
    unfold pollLoop at h
    split at h
    case isFalse =>
      obtain rfl : (⟨.error .timedOut, [], t⟩ : PollRun) = run :=
        Option.some.inj h
      simp [pollTimes, spacedFromB]
    case isTrue hD =>
      by_cases ha : abortedAt sig t = true
      · rw [if_pos ha] at h
        obtain rfl : (⟨.error .aborted, [], t⟩ : PollRun) = run :=
          Option.some.inj h
        simp [pollTimes, spacedFromB]
      · rw [if_neg ha] at h
        by_cases haf : abortedAt sig (t + i) = true
        · rw [if_pos haf] at h
          obtain rfl : (⟨.error .aborted, [], t + i⟩ : PollRun) = run :=
            Option.some.inj h
          simp [pollTimes, spacedFromB]
        · rw [if_neg haf] at h
          by_cases hp : isPendingStatus (env.pollResp k).status = true
          · rw [if_pos hp] at h
            cases hrec : pollLoop env did uc i D sig (t + i) (k + 1) fuel with
            | none => rw [hrec] at h; exact absurd h (by simp)
            | some run' =>
              rw [hrec] at h
              obtain rfl :
                  ({ run' with trace :=
                      (t + i, .pollRequest did uc) :: run'.trace } : PollRun) = run :=
                Option.some.inj h
              have := ih (t + i) (k + 1) run' hrec
              simp [pollTimes, spacedFromB, isPollEvent, List.filterMap_cons] at this ⊢
              exact this
          · rw [if_neg hp] at h
            by_cases hok : httpOk (env.pollResp k).status = true
            · rw [if_pos hok] at h
              cases hb : (env.pollResp k).body with
              | some b =>
                rw [hb] at h
                obtain rfl :
                    (⟨exchangeDeviceCodeForTokens env,
                      [(t + i, .pollRequest did uc),
                       (t + i, .exchangeRequest b.authorization_code b.code_verifier)],
                      t + i⟩ : PollRun) = run := Option.some.inj h
                simp [pollTimes, spacedFromB, isPollEvent, List.filterMap_cons]
              | none =>
                rw [hb] at h
                obtain rfl :
                    (⟨.error .parseError,
                      [(t + i, .pollRequest did uc)], t + i⟩ : PollRun) = run :=
                  Option.some.inj h
                simp [pollTimes, spacedFromB, isPollEvent, List.filterMap_cons]
            · rw [if_neg hok] at h
              obtain rfl :
                  (⟨.error (.pollingFailed (env.pollResp k).status),
                    [(t + i, .pollRequest did uc)], t + i⟩ : PollRun) = run :=
                Option.some.inj h
              simp [pollTimes, spacedFromB, isPollEvent, List.filterMap_cons]

/-- Peeling one request off a block of pending polls. -/
lemma pendPolls_succ (did uc : String) (t i n : Nat) :
    pendPolls did uc t i (n + 1) =
      (t + i, Event.pollRequest did uc) :: pendPolls did uc (t + i) i n := by
  unfold pendPolls
  rw [List.range_succ_eq_map]
  simp only [List.map_cons, List.map_map, Nat.zero_add, Nat.one_mul]
  congr 1
  apply List.map_congr_left
  intro a _
  simp only [Function.comp]
  have : t + (a + 1 + 1) * i = t + i + (a + 1) * i := by ring
  rw [this]

/-- Running the loop through `n` pending responses prepends `n` poll
requests, one per interval, and continues at clock `t + n * intervalMs`
with `n` more polls issued. -/
lemma pollLoop_pending_steps (env : PollEnv) (did uc : String)
    (i D : Nat) :
    ∀ n t k fuel,
      (∀ j, j < n → isPendingStatus (env.pollResp (k + j)).status = true) →
      (∀ j, j < n → t + j * i < D) →
      pollLoop env did uc i D none t k (n + fuel) =
        (pollLoop env did uc i D none (t + n * i) (k + n) fuel).map
          (fun run => { run with trace := pendPolls did uc t i n ++ run.trace }) := by
  intro n
  induction n with
  | zero =>
    intro t k fuel _ _
    simp only [Nat.zero_add, Nat.zero_mul, Nat.add_zero, pendPolls,
      List.range_zero, List.map_nil, List.nil_append]
    cases hp : pollLoop env did uc i D none t k fuel <;> simp
  | succ n ih =>
    intro t k fuel h1 h2
    have hD : t < D := by
      have := h2 0 (by omega)
      simpa using this
    have hstep :
        pollLoop env did uc i D none t k (n + 1 + fuel) =
          (pollLoop env did uc i D none (t + i) (k + 1) (n + fuel)).map
            (fun run => { run with
              trace := (t + i, .pollRequest did uc) :: run.trace }) := by
      have : n + 1 + fuel = (n + fuel) + 1 := by omega
      rw [this]
      conv_lhs => unfold pollLoop
      rw [if_pos hD]
      have hp0 : isPendingStatus (env.pollResp k).status = true := by
        have := h1 0 (by omega)
        simpa using this
      simp only [abortedAt, Bool.false_eq_true, if_false, hp0, if_true]
      cases hrec : pollLoop env did uc i D none (t + i) (k + 1) (n + fuel) <;> simp
    rw [hstep]
    rw [ih (t + i) (k + 1) fuel
      (fun j hj => by
        have := h1 (j + 1) (by omega)
        simpa [Nat.add_assoc, Nat.add_comm 1 j] using this)
      (fun j hj => by
        have := h2 (j + 1) (by omega)
        have harith : t + (j + 1) * i = t + i + j * i := by ring
        omega)]
    cases hp : pollLoop env did uc i D none (t + i + n * i) (k + 1 + n) fuel with
    | none =>
      have harith : t + (n + 1) * i = t + i + n * i := by ring
      have harith2 : k + (n + 1) = k + 1 + n := by omega
      rw [harith, harith2, hp]
      simp
    | some run =>
      have harith : t + (n + 1) * i = t + i + n * i := by ring
      have harith2 : k + (n + 1) = k + 1 + n := by omega
      rw [harith, harith2, hp]
      simp only [Option.map_some']
      congr 1
      rw [pendPolls_succ]
      simp

/-- One iteration on an ok response with a parseable body: a single
poll request, then immediately the token exchange, both at
`t + intervalMs`. -/
lemma pollLoop_success_step (env : PollEnv) (did uc : String)
    (i D t k fuel : Nat) (b : DeviceTokenResponse)
    (hD : t < D) (hok : httpOk (env.pollResp k).status = true)
    (hb : (env.pollResp k).body = some b) :
    pollLoop env did uc i D none t k (fuel + 1) =
      some ⟨exchangeDeviceCodeForTokens env,
        [(t + i, .pollRequest did uc),
         (t + i, .exchangeRequest b.authorization_code b.code_verifier)],
        t + i⟩ := by
  unfold pollLoop
  rw [if_pos hD]
  simp [abortedAt, isPendingStatus_of_httpOk hok, hok, hb]

/-- One iteration on a non-pending, non-ok response: a single poll
request and the polling-failed error. -/
lemma pollLoop_fatal_step (env : PollEnv) (did uc : String)
    (i D t k fuel : Nat)
    (hD : t < D) (hnp : isPendingStatus (env.pollResp k).status = false)
    (hok : httpOk (env.pollResp k).status = false) :
    pollLoop env did uc i D none t k (fuel + 1) =
      some ⟨.error (.pollingFailed (env.pollResp k).status),
        [(t + i, .pollRequest did uc)], t + i⟩ := by
  unfold pollLoop
  rw [if_pos hD]
  simp [abortedAt, hnp, hok]

lemma countPolls_append (a b : List (Nat × Event)) :
    countPolls (a ++ b) = countPolls a + countPolls b := by
  simp [countPolls, List.filter_append]

lemma countPolls_pendPolls (did uc : String) (i : Nat) :
    ∀ n t, countPolls (pendPolls did uc t i n) = n := by
  intro n
  induction n with
  | zero => intro t; simp [pendPolls, countPolls]
  | succ n ih =>
    intro t
    rw [pendPolls_succ]
    simp only [countPolls, List.filter_cons, isPollEvent, if_true]
    simpa [countPolls] using ih (t + i)

lemma exchangeCalls_append (a b : List (Nat × Event)) :
    exchangeCalls (a ++ b) = exchangeCalls a ++ exchangeCalls b := by
  simp [exchangeCalls, List.filter_append]

lemma exchangeCalls_pendPolls (did uc : String) (i : Nat) :
    ∀ n t, exchangeCalls (pendPolls did uc t i n) = [] := by
  intro n
  induction n with
  | zero => intro t; simp [pendPolls, exchangeCalls]
  | succ n ih =>
    intro t
    rw [pendPolls_succ]
    simp only [exchangeCalls, List.map_cons, List.filter_cons, isExchangeEvent]
    simpa [exchangeCalls] using ih (t + i)

/-- The polling-failed error carries exactly the status of a response
that is neither pending nor ok. -/
lemma pollLoop_pollingFailed_status (env : PollEnv) (did uc : String)
    (i D : Nat) (sig : Option Nat) :
    ∀ fuel t k run st,
      pollLoop env did uc i D sig t k fuel = some run →
      run.result = .error (.pollingFailed st) →
      isPendingStatus st = false ∧ httpOk st = false := by
  intro fuel
  induction fuel with
  | zero =>
    intro t k run st h hr
    unfold pollLoop at h
    split at h
    · exact absurd h (by simp)
    · obtain rfl : (⟨.error .timedOut, [], t⟩ : PollRun) = run :=
        Option.some.inj h
      simp at hr
  | succ fuel ih =>
    intro t k run st h hr
    unfold pollLoop at h
    split at h
    case isFalse =>
      obtain rfl : (⟨.error .timedOut, [], t⟩ : PollRun) = run :=
        Option.some.inj h
      simp at hr
    case isTrue hD =>
      by_cases ha : abortedAt sig t = true
      · rw [if_pos ha] at h
        obtain rfl : (⟨.error .aborted, [], t⟩ : PollRun) = run :=
          Option.some.inj h
        simp at hr
      · rw [if_neg ha] at h
        by_cases haf : abortedAt sig (t + i) = true
        · rw [if_pos haf] at h
          obtain rfl : (⟨.error .aborted, [], t + i⟩ : PollRun) = run :=
            Option.some.inj h
          simp at hr
        · rw [if_neg haf] at h
          by_cases hp : isPendingStatus (env.pollResp k).status = true
          · rw [if_pos hp] at h
            cases hrec : pollLoop env did uc i D sig (t + i) (k + 1) fuel with
            | none => rw [hrec] at h; exact absurd h (by simp)
            | some run' =>
              rw [hrec] at h
              obtain rfl :
                  ({ run' with trace :=
                      (t + i, .pollRequest did uc) :: run'.trace } : PollRun) = run :=
                Option.some.inj h
              exact ih (t + i) (k + 1) run' st hrec hr
          · rw [if_neg hp] at h
            by_cases hok : httpOk (env.pollResp k).status = true
            · rw [if_pos hok] at h
              cases hb : (env.pollResp k).body with
              | some b =>
                rw [hb] at h
                obtain rfl :
                    (⟨exchangeDeviceCodeForTokens env,
                      [(t + i, .pollRequest did uc),
                       (t + i, .exchangeRequest b.authorization_code b.code_verifier)],
                      t + i⟩ : PollRun) = run := Option.some.inj h
                rcases exchange_shape env with hx | hx | ⟨c, hx⟩ <;>
                  simp [hx] at hr
              | none =>
                rw [hb] at h
                obtain rfl :
                    (⟨.error .parseError,
                      [(t + i, .pollRequest did uc)], t + i⟩ : PollRun) = run :=
                  Option.some.inj h
                simp at hr
            · rw [if_neg hok] at h
              obtain rfl :
                  (⟨.error (.pollingFailed (env.pollResp k).status),
                    [(t + i, .pollRequest did uc)], t + i⟩ : PollRun) = run :=
                Option.some.inj h
              simp only [PollRun.mk.injEq] at hr
              have : (env.pollResp k).status = st := by
                simpa using hr
              rw [← this]
              exact ⟨by simpa using hp, by simpa using hok⟩

/-- `requestDeviceCode` issues exactly one network request — the
device-code request — whatever the endpoint answers. -/
lemma requestDeviceCode_events (resp : DeviceCodeHttp) :
    (requestDeviceCode resp).2 = [.deviceCodeRequest] := by
  unfold requestDeviceCode
  by_cases h4 : resp.status = 404
  · simp [h4]
  · by_cases hok : httpOk resp.status = true
    · cases hb : resp.body <;> simp [h4, hok, hb]
    · simp [h4, hok]

/-! ### Claims -/

/-- C5: `requestDeviceCode()` fails with the not-enabled error exactly
when the device-code endpoint responds 404 (not-found), fails with the
request-failed error carrying the status for every other non-success
response, returns the parsed `DeviceCodeResponse` on success, and in
every case issues only the single device-code request — never a poll or
an exchange. -/
theorem claim_C5_requestDeviceCode_classification (resp : DeviceCodeHttp) :
    ((requestDeviceCode resp).1 = .error .notEnabled ↔ resp.status = 404) ∧
    (resp.status ≠ 404 → httpOk resp.status = false →
      (requestDeviceCode resp).1 = .error (.requestFailed resp.status)) ∧
    (∀ b, httpOk resp.status = true → resp.body = some b →
      (requestDeviceCode resp).1 = .ok b) ∧
    (requestDeviceCode resp).2 = [.deviceCodeRequest] := by
  unfold requestDeviceCode
  by_cases h4 : resp.status = 404
  · have hok : httpOk resp.status = false := by
      simp [httpOk, h4]
    simp [h4, hok]
    intro b hc
    exact absurd hc (by decide)
  · by_cases hok : httpOk resp.status = true
    · cases hb : resp.body <;> simp [h4, hok, hb]
    · simp only [Bool.not_eq_true] at hok
      simp [h4, hok]

/-- Witness for C5 at the concrete non-404 failure status 500. -/
theorem claim_C5_witness :
    (requestDeviceCode ⟨500, none⟩).1 = .error (.requestFailed 500) ∧
    (requestDeviceCode ⟨500, none⟩).2 = [.deviceCodeRequest] :=
  ⟨(claim_C5_requestDeviceCode_classification ⟨500, none⟩).2.1 (by decide) (by decide),
   (claim_C5_requestDeviceCode_classification ⟨500, none⟩).2.2.2⟩

/-- C9: `cancelDeviceCodeFlow` is idempotent: a second invocation
leaves the manager in the same state as the first, and on a session
with no in-flight flow (controller already cleared — terminal) it is a
complete no-op, producing no abort events. -/
theorem claim_C9_cancel_idempotent (s : ManagerState) :
    (cancelDeviceCodeFlow (cancelDeviceCodeFlow s).1).1 =
      (cancelDeviceCodeFlow s).1 ∧
    (s.deviceCodeAbortController = none → cancelDeviceCodeFlow s = (s, [])) := by
  cases h : s.deviceCodeAbortController <;> simp [cancelDeviceCodeFlow, h]

/-- Witness for C9 at a concrete already-terminal state. -/
theorem claim_C9_witness :
    (cancelDeviceCodeFlow
        (cancelDeviceCodeFlow ⟨none, [], none, 0⟩).1).1 =
      (cancelDeviceCodeFlow ⟨none, [], none, 0⟩).1 ∧
    cancelDeviceCodeFlow ⟨none, [], none, 0⟩ = (⟨none, [], none, 0⟩, []) :=
  ⟨(claim_C9_cancel_idempotent ⟨none, [], none, 0⟩).1,
   (claim_C9_cancel_idempotent ⟨none, [], none, 0⟩).2 rfl⟩

/-- C10: `waitForDeviceAuthorization` on a session with no pending
device-code flow (controller `null`) fails immediately with the
no-pending-flow error, leaves the state (in particular the persisted
credentials) unchanged, and issues no network request. -/
theorem claim_C10_wait_without_flow (env : PollEnv)
    (did uc : String) (sig : Option Nat) (fuel : Nat) (s : ManagerState)
    (h : s.deviceCodeAbortController = none) :
    waitForDeviceAuthorization env did uc sig fuel s =
      some (s, .error .noPendingFlow, []) := by
  unfold waitForDeviceAuthorization
  rw [h]

/-- Witness for C10 at a concrete controller-free state. -/
theorem claim_C10_witness :
    waitForDeviceAuthorization envAllPending "d1" "u" none 5
        ⟨none, [], none, 3⟩ =
      some (⟨none, [], none, 3⟩, .error .noPendingFlow, []) :=
  claim_C10_wait_without_flow envAllPending "d1" "u" none 5
    ⟨none, [], none, 3⟩ rfl

/-- C1 (amended): the sleep between polls is a plain `setTimeout`, not
raced against the signal, so the signal is observed only at the
poll-boundary checkpoints (`throwIfAborted` and the `fetch` signal
check).  What holds is: no poll or exchange request is ever issued at or
after the instant the signal fires, and a run that terminates with the
abort error does so at the first checkpoint at or after the signal —
within one full polling interval of it, a latency bounded by (and in the
worst case equal to) the polling interval, not by a small constant. -/
theorem claim_C1_cancellation_latency (env : PollEnv) (did uc : String)
    (oIv oTm : Option Nat) (f fuel : Nat) (run : PollRun)
    (hi : 0 < oIv.getD OPENAI_CODEX_DEVICE_AUTH_CONFIG.pollingIntervalMs)
    (h : pollForDeviceAuthorization env did uc oIv oTm (some f) fuel = some run) :
    (∀ te ∈ run.trace, te.1 < f) ∧
    (run.result = .error .aborted →
      f ≤ run.endTime ∧
      run.endTime <
        f + oIv.getD OPENAI_CODEX_DEVICE_AUTH_CONFIG.pollingIntervalMs) := by
  unfold pollForDeviceAuthorization at h
  exact ⟨pollLoop_trace_before_abort env did uc _ _ f fuel 0 0 run h,
    fun hr => pollLoop_abort_latency env did uc _ _ f fuel 0 0 run
      (by omega) h hr⟩

/-- C1 counterexample: the signal fires at instant 1, yet with a
6000 ms interval the run only terminates at 6000, and with a 60000 ms
interval only at 60000 — the cancellation delay tracks the full polling
interval, refuting "terminates within a small constant delay not tied
to the full polling interval". -/
theorem claim_C1_counterexample :
    (pollForDeviceAuthorization envAllPending "d1" "u"
        (some 6000) none (some 1) 200).map PollRun.endTime = some 6000 ∧
    (pollForDeviceAuthorization envAllPending "d1" "u"
        (some 60000) none (some 1) 200).map PollRun.endTime = some 60000 ∧
    (pollForDeviceAuthorization envAllPending "d1" "u"
        (some 60000) none (some 1) 200).map PollRun.result =
      some (.error .aborted) := by
  decide

/-- Witness for C1 (amended) at the 6000 ms run cancelled at instant 1. -/
theorem claim_C1_witness :
    (∀ te ∈ (⟨.error .aborted, [], 6000⟩ : PollRun).trace, te.1 < 1) ∧
    ((⟨.error .aborted, [], 6000⟩ : PollRun).result = .error .aborted →
      1 ≤ (⟨.error .aborted, [], 6000⟩ : PollRun).endTime ∧
      (⟨.error .aborted, [], 6000⟩ : PollRun).endTime <
        1 + (some 6000).getD OPENAI_CODEX_DEVICE_AUTH_CONFIG.pollingIntervalMs) :=
  claim_C1_cancellation_latency envAllPending "d1" "u" (some 6000) none 1 200
    ⟨.error .aborted, [], 6000⟩ (by decide) (by decide)

/-- C2 (amended): the spacing between consecutive poll requests equals
the `intervalMs` override when one is supplied in the options and the
5000 ms configured default otherwise; the provider-specified `interval`
of the device-code response never reaches the loop, and the Session
Manager supplies no options at all, so manager-driven runs always poll
at the 5-second default.  The timeout is likewise the option override
with the 15-minute configured default. -/
theorem claim_C2_interval_spacing (env : PollEnv) (did uc : String)
    (oIv oTm sig : Option Nat) (fuel : Nat) :
    (∀ run, pollForDeviceAuthorization env did uc oIv oTm sig fuel = some run →
      spacedFromB (oIv.getD OPENAI_CODEX_DEVICE_AUTH_CONFIG.pollingIntervalMs) 0
        (pollTimes run.trace) = true) ∧
    (pollForDeviceAuthorization env did uc oIv oTm sig fuel =
      pollLoop env did uc
        (oIv.getD OPENAI_CODEX_DEVICE_AUTH_CONFIG.pollingIntervalMs)
        (oTm.getD OPENAI_CODEX_DEVICE_AUTH_CONFIG.timeoutMs) sig 0 0 fuel) ∧
    (∀ s out, waitForDeviceAuthorization env did uc sig fuel s = some out →
      spacedFromB 5000 0 (pollTimes out.2.2) = true) := by
  refine ⟨?_, rfl, ?_⟩
  · intro run h
    unfold pollForDeviceAuthorization at h
    exact pollLoop_spacing env did uc _ _ sig fuel 0 0 run h
  · intro s out h
    unfold waitForDeviceAuthorization at h
    split at h
    · obtain rfl := Option.some.inj h
      simp [pollTimes, spacedFromB]
    · split at h
      · exact absurd h (by simp)
      · rename_i run hp
        have hs : spacedFromB 5000 0 (pollTimes run.trace) = true :=
          pollLoop_spacing env did uc 5000 900000 sig fuel 0 0 run hp
        split at h <;> (obtain rfl := Option.some.inj h; simpa using hs)

/-- C2 counterexample: the device-code endpoint reports
`interval = 7` (seconds) and no override is configured, yet the
Session-Manager-driven run issues its polls at 5000, 10000, 15000 ms —
the provider-specified interval does not govern the spacing. -/
theorem claim_C2_counterexample :
    (requestDeviceCode ⟨200, some ⟨"d1", "ABCD-EFGH", some 7⟩⟩).1 =
      .ok ⟨"d1", "ABCD-EFGH", some 7⟩ ∧
    (waitForDeviceAuthorization envFatalAt2 "d1" "ABCD-EFGH" none 10
        mgrPending).map (fun out => pollTimes out.2.2) =
      some [5000, 10000, 15000] := by
  decide

/-- Witness for C2 (amended) on a run with a 6000 ms override. -/
theorem claim_C2_witness :
    spacedFromB 6000 0 (pollTimes
      [(6000, Event.pollRequest "d1" "u"),
       (6000, Event.exchangeRequest "ac1" "cv")]) = true :=
  (claim_C2_interval_spacing envExchangeFails "d1" "u"
      (some 6000) none none 10).1
    ⟨.error (.exchangeFailed 500),
     [(6000, .pollRequest "d1" "u"), (6000, .exchangeRequest "ac1" "cv")],
     6000⟩
    (by decide)

/-- C3: when the first `k` poll responses are pending and the next one
carries a success payload before the deadline, the run issues exactly
`k + 1` poll requests followed by exactly one exchange request carrying
the payload's authorization code and code verifier, its outcome is the
token exchange's, and — the exchange succeeding (its internals are
modelled from the spec) — it terminates with the credentials.  With
`k = 3` this is the spec's 4-polls-then-one-exchange scenario. -/
theorem claim_C3_success_single_exchange (env : PollEnv) (did uc : String)
    (oIv oTm : Option Nat) (k fuel : Nat) (b : DeviceTokenResponse)
    (hpend : ∀ j, j < k → isPendingStatus (env.pollResp j).status = true)
    (hok : httpOk (env.pollResp k).status = true)
    (hb : (env.pollResp k).body = some b)
    (htime : k * oIv.getD OPENAI_CODEX_DEVICE_AUTH_CONFIG.pollingIntervalMs <
      oTm.getD OPENAI_CODEX_DEVICE_AUTH_CONFIG.timeoutMs)
    (hfuel : k + 1 ≤ fuel) :
    ∃ run,
      pollForDeviceAuthorization env did uc oIv oTm none fuel = some run ∧
      run.result = exchangeDeviceCodeForTokens env ∧
      countPolls run.trace = k + 1 ∧
      exchangeCalls run.trace =
        [.exchangeRequest b.authorization_code b.code_verifier] ∧
      (∀ c, env.exchangeBody = some c → httpOk env.exchangeStatus = true →
        run.result = .ok c) := by
  set i := oIv.getD OPENAI_CODEX_DEVICE_AUTH_CONFIG.pollingIntervalMs with hi
  set D := oTm.getD OPENAI_CODEX_DEVICE_AUTH_CONFIG.timeoutMs with hD
  obtain ⟨m, rfl⟩ : ∃ m, fuel = k + (m + 1) :=
    ⟨fuel - (k + 1), by omega⟩
  unfold pollForDeviceAuthorization
  rw [← hi, ← hD]
  rw [pollLoop_pending_steps env did uc i D k 0 0 (m + 1)
    (fun j hj => by simpa using hpend j hj)
    (fun j hj => by
      have : j * i ≤ k * i := Nat.mul_le_mul_right i (by omega)
      omega)]
  rw [pollLoop_success_step env did uc i D (0 + k * i) (0 + k) m b
    (by omega) (by simpa using hok) (by simpa using hb)]
  refine ⟨_, rfl, rfl, ?_, ?_, ?_⟩
  · rw [countPolls_append, countPolls_pendPolls]
    simp [countPolls, isPollEvent]
  · rw [exchangeCalls_append, exchangeCalls_pendPolls]
    simp [exchangeCalls, isExchangeEvent]
  · intro c hc hokx
    simp [exchangeDeviceCodeForTokens, hokx, hc]

/-- Witness for C3: the spec scenario — three not-found answers, then
the payload `{authorization_code := "ac1", code_verifier := "cv"}` —
yields exactly 4 polls, one exchange with those fields, and the
credentials. -/
theorem claim_C3_witness :
    (pollForDeviceAuthorization envSuccessAt3 "d1" "ABCD-EFGH"
        none none none 10).map
      (fun run => (run.result, countPolls run.trace, exchangeCalls run.trace)) =
    some (.ok ⟨"at", "rt", "it", "acc"⟩, 3 + 1,
      [.exchangeRequest "ac1" "cv"]) := by
  obtain ⟨run, hrun, hres, hcount, hex, hcred⟩ :=
    claim_C3_success_single_exchange envSuccessAt3 "d1" "ABCD-EFGH"
      none none 3 10 ⟨"ac1", "cc", "cv"⟩
      (by decide) (by decide) (by decide) (by decide) (by decide)
  rw [hrun]
  simp [hcount, hex, hcred ⟨"at", "rt", "it", "acc"⟩ rfl (by decide)]

/-- C4: the loop keeps polling exactly on the pending statuses (403 and
404): a polling-failure outcome can only carry a status that is neither
pending nor ok; an all-pending run with no cancellation never stops
before the timeout; and the first response with any other non-success
status ends the run with the polling-failed error carrying that status
after exactly `k + 1` polls. -/
theorem claim_C4_pending_vs_fatal (env : PollEnv) (did uc : String)
    (oIv oTm : Option Nat) (fuel : Nat) :
    (∀ sig run st,
      pollForDeviceAuthorization env did uc oIv oTm sig fuel = some run →
      run.result = .error (.pollingFailed st) →
      isPendingStatus st = false ∧ httpOk st = false) ∧
    ((∀ j, isPendingStatus (env.pollResp j).status = true) →
      oTm.getD OPENAI_CODEX_DEVICE_AUTH_CONFIG.timeoutMs ≤
        fuel * oIv.getD OPENAI_CODEX_DEVICE_AUTH_CONFIG.pollingIntervalMs →
      ∃ run,
        pollForDeviceAuthorization env did uc oIv oTm none fuel = some run ∧
        run.result = .error .timedOut) ∧
    (∀ k,
      (∀ j, j < k → isPendingStatus (env.pollResp j).status = true) →
      isPendingStatus (env.pollResp k).status = false →
      httpOk (env.pollResp k).status = false →
      k * oIv.getD OPENAI_CODEX_DEVICE_AUTH_CONFIG.pollingIntervalMs <
        oTm.getD OPENAI_CODEX_DEVICE_AUTH_CONFIG.timeoutMs →
      k + 1 ≤ fuel →
      ∃ run,
        pollForDeviceAuthorization env did uc oIv oTm none fuel = some run ∧
        run.result = .error (.pollingFailed (env.pollResp k).status) ∧
        countPolls run.trace = k + 1) := by
  refine ⟨?_, ?_, ?_⟩
  · intro sig run st h hr
    unfold pollForDeviceAuthorization at h
    exact pollLoop_pollingFailed_status env did uc _ _ sig fuel 0 0 run st h hr
  · intro hall hft
    unfold pollForDeviceAuthorization
    exact pollLoop_allPending_timeout env did uc _ _ hall fuel 0 0 (by omega)
  · intro k hpend hnp hok htime hfuel
    set i := oIv.getD OPENAI_CODEX_DEVICE_AUTH_CONFIG.pollingIntervalMs with hi
    set D := oTm.getD OPENAI_CODEX_DEVICE_AUTH_CONFIG.timeoutMs with hD
    obtain ⟨m, rfl⟩ : ∃ m, fuel = k + (m + 1) :=
      ⟨fuel - (k + 1), by omega⟩
    unfold pollForDeviceAuthorization
    rw [← hi, ← hD]
    rw [pollLoop_pending_steps env did uc i D k 0 0 (m + 1)
      (fun j hj => by simpa using hpend j hj)
      (fun j hj => by
        have : j * i ≤ k * i := Nat.mul_le_mul_right i (by omega)
        omega)]
    rw [pollLoop_fatal_step env did uc i D (0 + k * i) (0 + k) m
      (by omega) (by simpa using hnp) (by simpa using hok)]
    refine ⟨_, rfl, by simp, ?_⟩
    rw [countPolls_append, countPolls_pendPolls]
    simp [countPolls, isPollEvent]

/-- Witness for C4 on the third conjunct: two pending answers then a
500 end the run with the polling-failed error after exactly 3 polls. -/
theorem claim_C4_witness :
    (pollForDeviceAuthorization envFatalAt2 "d1" "u" none none none 10).map
      (fun run => (run.result, countPolls run.trace)) =
    some (.error (.pollingFailed 500), 2 + 1) := by
  obtain ⟨run, hrun, hres, hcount⟩ :=
    (claim_C4_pending_vs_fatal envFatalAt2 "d1" "u" none none 10).2.2 2
      (by decide) (by decide) (by decide) (by decide) (by decide)
  rw [hrun]
  have h500 : (envFatalAt2.pollResp 2).status = 500 := by decide
  rw [h500] at hres
  simp [hres, hcount]

/-- C6: when no success payload arrives (every poll answer pending) and
no signal fires, the run ends with the timeout error once the deadline
— the 15-minute default unless overridden — elapses; when the signal
fires within the deadline of such a run, the outcome is the abort
error; and the run's outcome is unique — exactly one terminal outcome
per attempt. -/
theorem claim_C6_expired_or_cancelled (env : PollEnv) (did uc : String)
    (oIv oTm : Option Nat) (f fuel : Nat) :
    ((∀ j, isPendingStatus (env.pollResp j).status = true) →
      oTm.getD OPENAI_CODEX_DEVICE_AUTH_CONFIG.timeoutMs ≤
        fuel * oIv.getD OPENAI_CODEX_DEVICE_AUTH_CONFIG.pollingIntervalMs →
      ∃ run,
        pollForDeviceAuthorization env did uc oIv oTm none fuel = some run ∧
        run.result = .error .timedOut) ∧
    ((∀ j, isPendingStatus (env.pollResp j).status = true) →
      0 < fuel →
      f ≤ oTm.getD OPENAI_CODEX_DEVICE_AUTH_CONFIG.timeoutMs →
      0 < oTm.getD OPENAI_CODEX_DEVICE_AUTH_CONFIG.timeoutMs →
      f ≤ fuel * oIv.getD OPENAI_CODEX_DEVICE_AUTH_CONFIG.pollingIntervalMs →
      ∃ run,
        pollForDeviceAuthorization env did uc oIv oTm (some f) fuel = some run ∧
        run.result = .error .aborted) ∧
    (∀ sig run run',
      pollForDeviceAuthorization env did uc oIv oTm sig fuel = some run →
      pollForDeviceAuthorization env did uc oIv oTm sig fuel = some run' →
      run = run') := by
  refine ⟨?_, ?_, ?_⟩
  · intro hall hft
    unfold pollForDeviceAuthorization
    exact pollLoop_allPending_timeout env did uc _ _ hall fuel 0 0 (by omega)
  · intro hall hfuel hfD hDpos hft
    rcases Nat.eq_zero_or_pos f with rfl | hfpos
    · obtain ⟨m, rfl⟩ : ∃ m, fuel = m + 1 :=
        ⟨fuel - 1, by omega⟩
      refine ⟨⟨.error .aborted, [], 0⟩, ?_, rfl⟩
      unfold pollForDeviceAuthorization pollLoop
      rw [if_pos (by omega)]
      rw [if_pos (by simp [abortedAt])]
    · unfold pollForDeviceAuthorization
      exact pollLoop_allPending_abort env did uc _ _ f hall hfD fuel 0 0
        hfpos (by omega)
  · intro sig run run' h h'
    rw [h] at h'
    exact Option.some.inj h'

/-- Witness for C6: an all-pending run with the default 15-minute
timeout expires (first conjunct instantiated). -/
theorem claim_C6_witness :
    (pollForDeviceAuthorization envAllPending "d1" "u" none none
        none 200).map PollRun.result = some (.error .timedOut) := by
  obtain ⟨run, hrun, hres⟩ :=
    (claim_C6_expired_or_cancelled envAllPending "d1" "u" none none 1 200).1
      (fun _ => rfl) (by decide)
  rw [hrun]
  simp [hres]

/-- C7: the persisted credential set is written only when the attempt
returns credentials: every erroring `waitForDeviceAuthorization` call
(no pending flow, timeout, cancellation, polling failure, or a failed
or malformed token exchange) leaves the manager's saved credentials
exactly as they were, and a successful one saves exactly the returned
credentials (the `saveCredentials` step is modelled from the spec). -/
theorem claim_C7_persist_only_on_credentials (env : PollEnv)
    (did uc : String) (sig : Option Nat) (fuel : Nat) (s : ManagerState)
    (out : ManagerState × Except WaitError OpenAiCodexCredentials ×
      List (Nat × Event))
    (h : waitForDeviceAuthorization env did uc sig fuel s = some out) :
    (∀ e, out.2.1 = .error e → out.1.savedCredentials = s.savedCredentials) ∧
    (∀ c, out.2.1 = .ok c → out.1.savedCredentials = some c) := by
  unfold waitForDeviceAuthorization at h
  split at h
  · obtain rfl := Option.some.inj h
    exact ⟨fun e _ => rfl, fun c hc => by simp at hc⟩
  · split at h
    · exact absurd h (by simp)
    · rename_i run hp
      split at h
      · obtain rfl := Option.some.inj h
        exact ⟨fun e _ => rfl, fun c hc => by simp at hc⟩
      · rename_i cred hr
        obtain rfl := Option.some.inj h
        refine ⟨fun e he => by simp at he, fun c hc => ?_⟩
        obtain rfl : cred = c := by simpa using hc
        rfl

/-- Witness for C7: a failed token exchange (status 500) leaves the
stored credentials untouched. -/
theorem claim_C7_witness :
    ((mgrPending, Except.error (WaitError.pollFailed (.exchangeFailed 500)),
        [(5000, Event.pollRequest "d1" "u"),
         (5000, Event.exchangeRequest "ac1" "cv")]) :
      ManagerState × Except WaitError OpenAiCodexCredentials ×
        List (Nat × Event)).1.savedCredentials =
      mgrPending.savedCredentials :=
  (claim_C7_persist_only_on_credentials envExchangeFails "d1" "u" none 10
      mgrPending
      (mgrPending, .error (.pollFailed (.exchangeFailed 500)),
        [(5000, .pollRequest "d1" "u"), (5000, .exchangeRequest "ac1" "cv")])
      (by decide)).1
    (.pollFailed (.exchangeFailed 500)) rfl

/-- C8: with a flow in flight, `startDeviceCodeFlow` aborts the prior
controller's signal strictly before issuing the new device-code
request (the manager trace is exactly the abort followed by the
request), records that controller as aborted, and — the third conjunct
— a polling run driven by a signal that fires at instant `f` issues no
network request at or after `f`: the cancelled poll stops, so two polls
of the same session never run concurrently. -/
theorem claim_C8_start_cancels_prior (resp : DeviceCodeHttp)
    (s : ManagerState) (c : Nat)
    (h : s.deviceCodeAbortController = some c) :
    (startDeviceCodeFlow resp s).2.2 =
      [.abortSignal c, .net .deviceCodeRequest] ∧
    c ∈ (startDeviceCodeFlow resp s).1.abortedControllers ∧
    (∀ env did uc i D f t k fuel run,
      pollLoop env did uc i D (some f) t k fuel = some run →
      ∀ te ∈ run.trace, te.1 < f) := by
  refine ⟨?_, ?_,
    fun env did uc i D f t k fuel run hrun =>
      pollLoop_trace_before_abort env did uc i D f fuel t k run hrun⟩
  · unfold startDeviceCodeFlow
    simp [cancelDeviceCodeFlow, h, requestDeviceCode_events]
  · unfold startDeviceCodeFlow
    simp [cancelDeviceCodeFlow, h]

/-- Witness for C8 at a concrete state with controller 5 in flight. -/
theorem claim_C8_witness :
    (startDeviceCodeFlow ⟨404, none⟩ ⟨some 5, [], none, 6⟩).2.2 =
      [.abortSignal 5, .net .deviceCodeRequest] ∧
    5 ∈ (startDeviceCodeFlow ⟨404, none⟩ ⟨some 5, [], none, 6⟩).1.abortedControllers :=
  ⟨(claim_C8_start_cancels_prior ⟨404, none⟩ ⟨some 5, [], none, 6⟩ 5 rfl).1,
   (claim_C8_start_cancels_prior ⟨404, none⟩ ⟨some 5, [], none, 6⟩ 5 rfl).2.1⟩

end DeviceCodeAuth
